import Mathlib

/-!
Verification of the async phone-validation pipeline in `api_operations.py`.

The embedding models:
  * `AsyncCache` — a Python dict (insertion-ordered association list) with
    FIFO eviction (`set` pops `next(iter(cache))`, the oldest-inserted key,
    whenever `len(cache) >= maxsize`, then assigns `cache[key] = value`);
  * `validate_phone` — cache lookup, then one HTTP call; a 200 response
    carrying both `valid` and `location` keys is cached and returned;
    any other response yields `(False, None)` uncached; `aiohttp.ClientError`
    is caught inside and yields `(False, None)`; `asyncio.TimeoutError` is
    NOT caught and propagates out;
  * `retry_request` — `for attempt in range(RETRY_COUNT)` retry loop catching
    `(aiohttp.ClientError, asyncio.TimeoutError)`, sleeping
    `RETRY_DELAY * 2 ** attempt` between attempts, returning `(False, None)`
    after the last failed attempt (and Python `None` when the range is empty);
  * `batch_validate_phones` — spawns one retry-wrapped validation per phone,
    collects values in COMPLETION order (`asyncio.as_completed`), converts a
    raised exception to `(False, None)`, then writes
    `f"Phone: {phone}, Result: {result}\n"` for
    `phone, result in zip(phone_list, results)` and returns `results`.

Machine-level effects (awaits, locks, file IO) are modelled by explicit state
passing; the completion order of the batch is an explicit parameter, a list of
task indices.
-/

/-- A validation result: the `(valid, location)` pair built from the API JSON.
`location` is `none` when the Python value is `None`. -/
abbrev ValResult := Bool × Option String

/-- The cache dict `self.cache`, as an insertion-ordered association list:
the head is the oldest-inserted key (what `next(iter(self.cache))` yields). -/
abbrev CacheState := List (String × ValResult)

/-- Python exception classes that can cross the boundaries modelled here. -/
inductive PyErr where
  /-- `aiohttp.ClientError` (connection failures and friends). -/
  | clientError
  /-- `asyncio.TimeoutError` raised when a request exceeds its timeout. -/
  | timeoutError
  /-- `StopIteration` from `next(iter({}))` when `set` pops an empty dict
  (reachable only with `maxsize = 0`). -/
  | stopIteration
  /-- Any other unexpected exception. -/
  | otherError
deriving DecidableEq

/-- The parsed JSON body of a Numverify response; a field is `none` when the
corresponding key is absent from the dict (the `in data` membership tests). -/
structure ApiResponse where
  valid : Option Bool
  location : Option (Option String)
deriving DecidableEq

/-- What one outbound `session.get` does: return a response with a status and
a parsed body, raise `aiohttp.ClientError`, or raise `asyncio.TimeoutError`. -/
inductive TransportOutcome where
  | response (status : Nat) (data : ApiResponse)
  | clientError
  | timeout
deriving DecidableEq

/-- Python dict lookup `self.cache.get(key)`. -/
def dictGet : CacheState → String → Option ValResult
  | [], _ => none
  | (k0, v0) :: rest, k => if k0 = k then some v0 else dictGet rest k

/-- Python dict assignment `self.cache[key] = value`: overwrite in place when
the key is present (keeping its insertion position), else append at the end. -/
def dictInsert : CacheState → String → ValResult → CacheState
  | [], k, v => [(k, v)]
  | (k0, v0) :: rest, k, v =>
      if k0 = k then (k0, v) :: rest else (k0, v0) :: dictInsert rest k v

/-- The method `AsyncCache.get` (the lock only serializes; no state change). -/
def AsyncCache.get (c : CacheState) (k : String) : Option ValResult :=
  dictGet c k

/-- The method `AsyncCache.set`: when `len(self.cache) >= self.maxsize`, pop
the oldest-inserted entry first (`self.cache.pop(next(iter(self.cache)))`),
then assign `self.cache[key] = value`. Popping an empty dict raises
`StopIteration` (`none` here); that branch is reachable only for
`maxsize = 0`. -/
def AsyncCache.set (maxsize : Nat) (k : String) (v : ValResult) (c : CacheState) :
    Option CacheState :=
  if maxsize ≤ c.length then
    match c with
    | [] => none
    | _ :: t => some (dictInsert t k v)
  else some (dictInsert c k v)

/-- The method `AsyncCache.close` / `clear`: `self.cache.clear()`. -/
def AsyncCache.clear (_c : CacheState) : CacheState := []

/-- One call against the cache interface, for stating state invariants. -/
inductive CacheOp where
  | getOp (k : String)
  | setOp (k : String) (v : ValResult)
  | clearOp
deriving DecidableEq

/-- Run one cache operation; `none` models a raised exception. -/
def cacheStep (maxsize : Nat) (c : CacheState) : CacheOp → Option CacheState
  | .getOp _ => some c
  | .setOp k v => AsyncCache.set maxsize k v c
  | .clearOp => some (AsyncCache.clear c)

/-- Run a sequence of cache operations from a starting state. -/
def runOps (maxsize : Nat) : List CacheOp → CacheState → Option CacheState
  | [], c => some c
  | op :: rest, c =>
      match cacheStep maxsize c op with
      | some c2 => runOps maxsize rest c2
      | none => none

/-- Run a sequence of `set` calls (the shape quantified over in the cache
eviction property). -/
def runSets (maxsize : Nat) : List (String × ValResult) → CacheState → Option CacheState
  | [], c => some c
  | kv :: rest, c =>
      match AsyncCache.set maxsize kv.1 kv.2 c with
      | some c2 => runSets maxsize rest c2
      | none => none

deriving instance DecidableEq for Except

/-- The observable effect of one `validate_phone` call: its return value or
raised exception, the cache afterwards, and how many network calls it made. -/
structure ValidateRun where
  outcome : Except PyErr ValResult
  cache : CacheState
  networkCalls : Nat
deriving DecidableEq

/-- The function `validate_phone(phone, session)`:
1. `cache.get(phone)`; on a non-`None` hit return it (no network call);
2. `session.get(url)`: on `aiohttp.ClientError` return `(False, None)`
   (the except clause); a timeout propagates `asyncio.TimeoutError`;
3. on a response, if `status == 200` and both `valid` and `location` are in
   the JSON, cache and return `(data[valid], data[location])`;
   otherwise return `(False, None)` without caching. -/
def validate_phone (maxsize : Nat) (phone : String) (t : TransportOutcome)
    (c : CacheState) : ValidateRun :=
  match dictGet c phone with
  | some r => ⟨.ok r, c, 0⟩
  | none =>
      match t with
      | .clientError => ⟨.ok (false, none), c, 1⟩
      | .timeout => ⟨.error .timeoutError, c, 1⟩
      | .response status data =>
          if status = 200 then
            match data.valid, data.location with
            | some b, some loc =>
                match AsyncCache.set maxsize phone (b, loc) c with
                | some c2 => ⟨.ok (b, loc), c2, 1⟩
                | none => ⟨.error .stopIteration, c, 1⟩
            | _, _ => ⟨.ok (false, none), c, 1⟩
          else ⟨.ok (false, none), c, 1⟩

/-- The tuple of exception classes caught by `retry_request`:
`(aiohttp.ClientError, asyncio.TimeoutError)`. -/
def isRetryable : PyErr → Bool
  | .clientError => true
  | .timeoutError => true
  | .stopIteration => false
  | .otherError => false

/-- The observable effect of one `retry_request` call: the value it returns
(`some r` a result tuple, `none` the Python `None` falling off an empty
range) or the exception it re-raises, the final threaded state, the number of
invocations of the wrapped operation, and the list of back-off sleeps. -/
structure RetryRun (σ : Type) where
  outcome : Except PyErr (Option ValResult)
  state : σ
  calls : Nat
  sleeps : List Nat
deriving DecidableEq

/-- The loop body of `retry_request`, with `fuel` the number of iterations the
`range` still holds and `attempt` the zero-based loop variable: try the
operation; on `(aiohttp.ClientError, asyncio.TimeoutError)` sleep
`retryDelay * 2 ** attempt` if attempts remain, else return `(False, None)`;
other exceptions propagate; an exhausted range returns Python `None`. -/
def retry_go {σ : Type} (op : Nat → σ → Except PyErr ValResult × σ)
    (retryDelay : Nat) : Nat → Nat → σ → RetryRun σ
  | _, 0, s => ⟨.ok none, s, 0, []⟩
  | attempt, fuel + 1, s =>
      match op attempt s with
      | (.ok r, s2) => ⟨.ok (some r), s2, 1, []⟩
      | (.error e, s2) =>
          if isRetryable e then
            if 0 < fuel then
              match retry_go op retryDelay (attempt + 1) fuel s2 with
              | ⟨o, s3, n, ds⟩ => ⟨o, s3, n + 1, retryDelay * 2 ^ attempt :: ds⟩
            else ⟨.ok (some (false, none)), s2, 1, []⟩
          else ⟨.error e, s2, 1, []⟩

/-- The function `retry_request(func, *args)` with configured
`RETRY_COUNT` and `RETRY_DELAY`, generic over the wrapped fallible operation
(indexed by attempt number, threading explicit state `σ`). -/
def retry_request {σ : Type} (op : Nat → σ → Except PyErr ValResult × σ)
    (retryCount retryDelay : Nat) (s : σ) : RetryRun σ :=
  retry_go op retryDelay 0 retryCount s

/-- The operation that `retry_request` wraps in the batch:
`validate_phone(phone, session)`, threading the cache and a network-call
counter; the attempt index selects the transport behaviour of that call. -/
def validateOp (maxsize : Nat) (phone : String) (transports : Nat → TransportOutcome) :
    Nat → CacheState × Nat → Except PyErr ValResult × (CacheState × Nat) :=
  fun attempt s =>
    match validate_phone maxsize phone (transports attempt) s.1 with
    | ⟨o, c2, n⟩ => (o, (c2, s.2 + n))

/-- One task of the batch: `retry_request(validate_phone, phone, session)`. -/
def runTask (maxsize retryCount retryDelay : Nat) (phone : String)
    (transports : Nat → TransportOutcome) (c : CacheState) :
    RetryRun (CacheState × Nat) :=
  retry_request (validateOp maxsize phone transports) retryCount retryDelay (c, 0)

/-- The collection boundary of the orchestrator (the `try`/`except` around
`await task`): an awaited value is appended as is; any raised exception is
converted to the tuple `(False, None)`. -/
def collectValue : Except PyErr (Option ValResult) → Option ValResult
  | .ok v => v
  | .error _ => some (false, none)

/-- Python `str` of a bool. -/
def pyStrBool : Bool → String
  | true => "True"
  | false => "False"

/-- A single-quote character, as used by Python `repr` of a string. -/
def squote : String := String.singleton (Char.ofNat 39)

/-- Python `repr` of an optional string: `None`, or the string between single
quotes (no escaping is needed for the identifiers and locations used here). -/
def pyReprOptStr : Option String → String
  | none => "None"
  | some s => squote ++ s ++ squote

/-- Python `str` of a `(valid, location)` tuple, as interpolated by the
f-string: `repr` of each component between parentheses. -/
def pyStrResult : ValResult → String
  | (b, loc) => "(" ++ pyStrBool b ++ ", " ++ pyReprOptStr loc ++ ")"

/-- Python `str` of an awaited task value (`None` when `retry_request` fell
off an empty range, else the tuple). -/
def pyStrTaskValue : Option ValResult → String
  | none => "None"
  | some r => pyStrResult r

/-- One line written to the output file:
`f"Phone: {phone}, Result: {result}\n"`. -/
def formatLine (phone : String) (r : Option ValResult) : String :=
  "Phone: " ++ phone ++ ", Result: " ++ pyStrTaskValue r ++ "\n"

/-- The observable effect of one `batch_validate_phones` call: the returned
`results` list (in completion order, as collected), the lines written to the
output file, and the cache after the batch. -/
structure BatchRun where
  results : List (Option ValResult)
  lines : List String
  finalCache : CacheState
deriving DecidableEq

/-- The collection loop `async for task in tqdm(asyncio.as_completed(tasks))`:
process tasks in the completion order given by `order` (a list of task
indices), threading the shared cache, collecting each awaited value with the
`try`/`except` boundary. Returns the final cache and the collected values in
completion order. -/
def runBatchAux (maxsize retryCount retryDelay : Nat) (phones : List String)
    (transports : Nat → Nat → TransportOutcome) :
    List Nat → CacheState → CacheState × List (Option ValResult)
  | [], c => (c, [])
  | i :: rest, c =>
      let r := runTask maxsize retryCount retryDelay (phones.getD i "")
        (transports i) c
      let k := runBatchAux maxsize retryCount retryDelay phones transports
        rest r.state.1
      (k.1, collectValue r.outcome :: k.2)

/-- The function `batch_validate_phones(phone_list)`: spawn one
`retry_request(validate_phone, phone, session)` per phone, collect the values
in completion order (`order` is the order in which the tasks complete), then
write `f"Phone: {phone}, Result: {result}\n"` for each pair of
`zip(phone_list, results)` and return `results`. -/
def batch_validate_phones (maxsize retryCount retryDelay : Nat)
    (phones : List String) (transports : Nat → Nat → TransportOutcome)
    (order : List Nat) (c0 : CacheState) : BatchRun :=
  let k := runBatchAux maxsize retryCount retryDelay phones transports order c0
  { results := k.2
    lines := (phones.zip k.2).map (fun pr => formatLine pr.1 pr.2)
    finalCache := k.1 }

/-! Helper lemmas about the dict and cache model. -/

/-- After `dictInsert c k v`, looking up `k` yields `v`. -/
theorem dictGet_dictInsert_self (c : CacheState) (k : String) (v : ValResult) :
    dictGet (dictInsert c k v) k = some v := by
  induction c with
  | nil => simp [dictInsert, dictGet]
  | cons kv rest ih =>
      obtain ⟨k0, v0⟩ := kv
      by_cases h : k0 = k
      all_goals simp [dictInsert, dictGet, h, ih]

/-- Inserting an absent key appends it at the end (newest position). -/
theorem dictInsert_of_not_mem (c : CacheState) (k : String) (v : ValResult)
    (h : k ∉ c.map Prod.fst) : dictInsert c k v = c ++ [(k, v)] := by
  induction c with
  | nil => simp [dictInsert]
  | cons kv rest ih =>
      obtain ⟨k0, v0⟩ := kv
      simp only [List.map_cons, List.mem_cons] at h
      push_neg at h
      simp [dictInsert, Ne.symm h.1, ih h.2]

/-- Dict assignment grows the dict by at most one entry. -/
theorem dictInsert_length_le (c : CacheState) (k : String) (v : ValResult) :
    (dictInsert c k v).length ≤ c.length + 1 := by
  induction c with
  | nil => simp [dictInsert]
  | cons kv rest ih =>
      obtain ⟨k0, v0⟩ := kv
      by_cases h : k0 = k
      all_goals simp [dictInsert, h]
      all_goals omega

/-- Overwriting a present key keeps the dict size unchanged. -/
theorem dictInsert_length_of_mem (c : CacheState) (k : String) (v : ValResult)
    (h : k ∈ c.map Prod.fst) : (dictInsert c k v).length = c.length := by
  induction c with
  | nil => simp at h
  | cons kv rest ih =>
      obtain ⟨k0, v0⟩ := kv
      by_cases hk : k0 = k
      · simp [dictInsert, hk]
      · simp only [List.map_cons, List.mem_cons] at h
        rcases h with h | h
        · exact absurd h.symm hk
        · simp [dictInsert, hk, ih h]

/-- Overwriting a present key keeps the key sequence unchanged. -/
theorem dictInsert_map_fst_of_mem (c : CacheState) (k : String) (v : ValResult)
    (h : k ∈ c.map Prod.fst) :
    (dictInsert c k v).map Prod.fst = c.map Prod.fst := by
  induction c with
  | nil => simp at h
  | cons kv rest ih =>
      obtain ⟨k0, v0⟩ := kv
      by_cases hk : k0 = k
      · simp [dictInsert, hk]
      · simp only [List.map_cons, List.mem_cons] at h
        rcases h with h | h
        · exact absurd h.symm hk
        · simp [dictInsert, hk, ih h]

/-- With a positive capacity, `set` never raises, and afterwards the key maps
to the value just stored. -/
theorem cacheSet_of_pos (maxsize : Nat) (k : String) (v : ValResult)
    (c : CacheState) (hms : 1 ≤ maxsize) :
    ∃ c2, AsyncCache.set maxsize k v c = some c2 ∧ dictGet c2 k = some v := by
  by_cases h : maxsize ≤ c.length
  · match c, h with
    | [], h => simp at h; omega
    | kv :: t, h =>
        refine ⟨dictInsert t k v, ?_, dictGet_dictInsert_self t k v⟩
        unfold AsyncCache.set
        rw [if_pos h]
  · refine ⟨dictInsert c k v, ?_, dictGet_dictInsert_self c k v⟩
    unfold AsyncCache.set
    rw [if_neg h]

/-- A successful `set` never pushes the size above a positive capacity. -/
theorem cacheSet_length_le (maxsize : Nat) (k : String) (v : ValResult)
    (c c2 : CacheState) (hms : 1 ≤ maxsize) (hlen : c.length ≤ maxsize)
    (h : AsyncCache.set maxsize k v c = some c2) : c2.length ≤ maxsize := by
  unfold AsyncCache.set at h
  by_cases hc : maxsize ≤ c.length
  · match c with
    | [] => simp at hc; omega
    | kv :: t =>
        simp only [hc, if_true] at h
        cases h
        have := dictInsert_length_le t k v
        simp at hlen
        omega
  · simp only [hc, if_false] at h
    cases h
    have := dictInsert_length_le c k v
    omega

/-- Size invariant along any successful run of cache operations. -/
theorem runOps_length_le (maxsize : Nat) (hms : 1 ≤ maxsize) :
    ∀ (ops : List CacheOp) (c c2 : CacheState), c.length ≤ maxsize →
      runOps maxsize ops c = some c2 → c2.length ≤ maxsize := by
  intro ops
  induction ops with
  | nil =>
      intro c c2 hc h
      simp only [runOps, Option.some.injEq] at h
      subst h
      exact hc
  | cons op rest ih =>
      intro c c2 hc h
      simp only [runOps] at h
      cases hop : cacheStep maxsize c op with
      | none => rw [hop] at h; cases h
      | some c1 =>
          rw [hop] at h
          apply ih c1 c2 _ h
          cases op with
          | getOp k => simp [cacheStep] at hop; cases hop; exact hc
          | setOp k v => exact cacheSet_length_le maxsize k v c c1 hms hc hop
          | clearOp => simp [cacheStep, AsyncCache.clear] at hop; cases hop; simp

/-- FIFO behaviour on pairwise-distinct keys: running the `set` calls keeps
exactly the suffix of the insertion sequence that fits the capacity. -/
theorem runSets_distinct (C : Nat) (hC : 1 ≤ C) :
    ∀ (kvs : List (String × ValResult)) (c : CacheState),
      ((c ++ kvs).map Prod.fst).Nodup → c.length ≤ C →
      runSets C kvs c = some ((c ++ kvs).drop ((c ++ kvs).length - C)) := by
  intro kvs
  induction kvs with
  | nil =>
      intro c hnd hlen
      have h0 : c.length - C = 0 := by omega
      simp [runSets, h0]
  | cons kv rest ih =>
      intro c hnd hlen
      obtain ⟨k, v⟩ := kv
      by_cases hful : C ≤ c.length
      · have hceq : c.length = C := le_antisymm hlen hful
        cases c with
        | nil => simp at hceq; omega
        | cons p t =>
            obtain ⟨k0, v0⟩ := p
            have hset : AsyncCache.set C k v ((k0, v0) :: t) =
                some (dictInsert t k v) := by
              unfold AsyncCache.set
              rw [if_pos hful]
            simp only [List.cons_append, List.map_cons] at hnd
            have htail0 := hnd.of_cons
            have htail := htail0
            simp only [List.map_append, List.map_cons] at htail
            rw [List.nodup_append] at htail
            obtain ⟨_, _, hdisj⟩ := htail
            have hkt : k ∉ t.map Prod.fst :=
              fun hk => hdisj hk (List.mem_cons_self k _)
            have hins : dictInsert t k v = t ++ [(k, v)] :=
              dictInsert_of_not_mem t k v hkt
            have hnd2 : (((t ++ [(k, v)]) ++ rest).map Prod.fst).Nodup := by
              rw [List.append_assoc, List.singleton_append]
              exact htail0
            have hlen' : (t ++ [(k, v)]).length ≤ C := by
              simp at hceq
              simp
              omega
            have hrec := ih (t ++ [(k, v)]) hnd2 hlen'
            have hL : (t ++ [(k, v)]) ++ rest = t ++ ((k, v) :: rest) := by
              rw [List.append_assoc, List.singleton_append]
            rw [hL] at hrec
            simp only [runSets, hset, hins]
            rw [hrec]
            congr 1
            simp only [List.cons_append, List.length_cons]
            have hlen2 : (t ++ (k, v) :: rest).length = C + rest.length := by
              simp at hceq
              simp
              omega
            rw [hlen2]
            have e1 : C + rest.length - C = rest.length := by omega
            have e2 : C + rest.length + 1 - C = rest.length + 1 := by omega
            rw [e1, e2, List.drop_succ_cons]
      · have hset : AsyncCache.set C k v c = some (dictInsert c k v) := by
          unfold AsyncCache.set
          rw [if_neg hful]
        have hnd0 := hnd
        simp only [List.map_append, List.map_cons] at hnd0
        rw [List.nodup_append] at hnd0
        obtain ⟨_, _, hdisj⟩ := hnd0
        have hkc : k ∉ c.map Prod.fst :=
          fun hk => hdisj hk (List.mem_cons_self k _)
        have hins : dictInsert c k v = c ++ [(k, v)] :=
          dictInsert_of_not_mem c k v hkc
        have hnd2 : (((c ++ [(k, v)]) ++ rest).map Prod.fst).Nodup := by
          rw [List.append_assoc, List.singleton_append]
          exact hnd
        have hlen' : (c ++ [(k, v)]).length ≤ C := by
          simp
          omega
        have hrec := ih (c ++ [(k, v)]) hnd2 hlen'
        simp only [runSets, hset, hins]
        rw [hrec]
        congr 1
        all_goals rw [List.append_assoc, List.singleton_append]

/-- The batch collects exactly one value per completed task. -/
theorem runBatchAux_length (maxsize retryCount retryDelay : Nat)
    (phones : List String) (transports : Nat → Nat → TransportOutcome) :
    ∀ (order : List Nat) (c : CacheState),
      (runBatchAux maxsize retryCount retryDelay phones transports order c).2.length
        = order.length := by
  intro order
  induction order with
  | nil => intro c; rfl
  | cons i rest ih => intro c; simp [runBatchAux, ih]

/-- Each collected value of the batch is the collected outcome of the task it
was awaited from (run against the cache state current at its start). -/
theorem runBatchAux_get (maxsize retryCount retryDelay : Nat)
    (phones : List String) (transports : Nat → Nat → TransportOutcome) :
    ∀ (order : List Nat) (c : CacheState) (j : Nat), j < order.length →
      ∃ cj, (runBatchAux maxsize retryCount retryDelay phones transports order c).2[j]?
        = some (collectValue (runTask maxsize retryCount retryDelay
            (phones.getD (order.getD j 0) "") (transports (order.getD j 0)) cj).outcome) := by
  intro order
  induction order with
  | nil => intro c j hj; simp at hj
  | cons i rest ih =>
      intro c j hj
      cases j with
      | zero =>
          refine ⟨c, ?_⟩
          simp [runBatchAux]
      | succ j =>
          have hj2 : j < rest.length := by
            simp at hj
            omega
          obtain ⟨cj, hcj⟩ := ih
            ((runTask maxsize retryCount retryDelay (phones.getD i "")
              (transports i) c).state.1) j hj2
          refine ⟨cj, ?_⟩
          simp only [runBatchAux, List.getElem?_cons_succ, List.getD_cons_succ]
          exact hcj

/-! Claim theorems. -/

/-- C9: after any sequence of cache operations (get, set, clear) run from the
freshly constructed empty cache, the number of entries held by the cache never
exceeds the (positive) capacity fixed at construction. -/
theorem c9_cache_size_bounded (maxsize : Nat) (ops : List CacheOp)
    (c : CacheState) (hms : 1 ≤ maxsize) (h : runOps maxsize ops [] = some c) :
    c.length ≤ maxsize :=
  runOps_length_le maxsize hms ops [] c (by simp) h

/-- C9 witness: a concrete operation sequence on a capacity-2 cache. -/
theorem c9_cache_size_bounded_witness :
    ([("b", (true, none)), ("c", (false, none))] : CacheState).length ≤ 2 :=
  c9_cache_size_bounded 2
    [.setOp "a" (true, none), .getOp "a", .setOp "b" (true, none),
     .setOp "c" (false, none), .getOp "b"]
    [("b", (true, none)), ("c", (false, none))] (by omega) (by decide)

/-- C10: calling `set` while the cache already holds its full capacity of
entries with the key already present still evicts the oldest-inserted entry:
the pre-insertion size check does not distinguish an overwrite from a new
insertion, so the overwrite removes the unrelated oldest entry and leaves the
cache strictly below capacity (size capacity - 1). -/
theorem c10_overwrite_at_capacity_evicts (C : Nat) (k k0 : String)
    (v v0 : ValResult) (t : List (String × ValResult))
    (hcap : C = t.length + 1) (hmem : k ∈ t.map Prod.fst)
    (hk0 : k0 ∉ t.map Prod.fst) :
    AsyncCache.set C k v ((k0, v0) :: t) = some (dictInsert t k v) ∧
    (dictInsert t k v).length + 1 = C ∧
    k0 ∉ (dictInsert t k v).map Prod.fst ∧
    dictGet (dictInsert t k v) k = some v := by
  refine ⟨?_, ?_, ?_, dictGet_dictInsert_self t k v⟩
  · unfold AsyncCache.set
    rw [if_pos (by simp; omega)]
  · rw [dictInsert_length_of_mem t k v hmem]
    omega
  · rw [dictInsert_map_fst_of_mem t k v hmem]
    exact hk0

/-- C10 witness: overwriting key b in a full capacity-2 cache evicts the
unrelated oldest entry a and leaves a single entry. -/
theorem c10_overwrite_at_capacity_evicts_witness :
    AsyncCache.set 2 "b" (false, some "X") [("a", (true, none)), ("b", (true, none))]
      = some [("b", (false, some "X"))] ∧
    ([("b", (false, some "X"))] : CacheState).length + 1 = 2 ∧
    "a" ∉ ([("b", (false, some "X"))] : CacheState).map Prod.fst ∧
    dictGet [("b", (false, some "X"))] "b" = some (false, some "X") := by
  have h := c10_overwrite_at_capacity_evicts 2 "b" "a" (false, some "X")
    (true, none) [("b", (true, none))] (by decide) (by simp) (by simp)
  exact h

/-- C4 counterexample: with capacity 2, the three `set` calls a, b, b exceed
the capacity, and the two most-recently-inserted keys are b and a; yet the
final cache holds only the single entry b, because the overwrite of b at full
capacity first evicts the oldest entry a. The claim as stated (exactly the C
most-recently-inserted keys remain, for repeated insertions too) is false. -/
theorem c4_counterexample :
    runSets 2 [("a", (true, none)), ("b", (true, none)), ("b", (false, none))] []
      = some [("b", (false, none))] ∧
    ([("b", (false, none))] : CacheState).length ≠ 2 ∧
    "a" ∉ ([("b", (false, none))] : CacheState).map Prod.fst := by
  decide

/-- C4 (amended): for any sequence of `set` calls with pairwise-distinct keys
run from the empty cache, exactly the C most-recently-inserted keys remain
(the final cache is the capacity-sized suffix of the insertion sequence, so
each eviction removed the oldest-inserted entry, irrespective of `get`
accesses, which do not change the state). -/
theorem c4_amended_fifo_on_distinct_keys (C : Nat)
    (kvs : List (String × ValResult)) (hC : 1 ≤ C)
    (hnd : (kvs.map Prod.fst).Nodup) :
    runSets C kvs [] = some (kvs.drop (kvs.length - C)) := by
  have h := runSets_distinct C hC kvs [] (by simpa using hnd) (by simp)
  simpa using h

/-- C4 witness: three distinct keys into a capacity-2 cache keep the last
two. -/
theorem c4_amended_fifo_on_distinct_keys_witness :
    runSets 2 [("a", (true, none)), ("b", (true, none)), ("c", (false, none))] []
      = some [("b", (true, none)), ("c", (false, none))] := by
  have h := c4_amended_fifo_on_distinct_keys 2
    [("a", (true, none)), ("b", (true, none)), ("c", (false, none))]
    (by omega) (by decide)
  exact h

/-- C5: with the configured 3 attempts and base delay 2, `retry_request`
around an operation that raises a retryable (network/timeout-class) error on
every call invokes the operation exactly 3 times, sleeps 2 then 4 between
consecutive attempts (no wait after the final attempt), and returns the
failure result (False, None) instead of raising. -/
theorem c5_retry_backoff_schedule {σ : Type}
    (op : Nat → σ → Except PyErr ValResult × σ) (s0 : σ)
    (h : ∀ a s, ∃ e s2, op a s = (.error e, s2) ∧ isRetryable e = true) :
    (retry_request op 3 2 s0).calls = 3 ∧
    (retry_request op 3 2 s0).sleeps = [2, 4] ∧
    (retry_request op 3 2 s0).outcome = .ok (some (false, none)) := by
  obtain ⟨e0, s1, h0, hr0⟩ := h 0 s0
  obtain ⟨e1, s2, h1, hr1⟩ := h 1 s1
  obtain ⟨e2, s3, h2, hr2⟩ := h 2 s2
  simp [retry_request, retry_go, h0, h1, h2, hr0, hr1, hr2]

/-- C5 witness: a concrete always-timing-out operation on a unit state. -/
theorem c5_retry_backoff_schedule_witness :
    (retry_request (fun _ (s : Unit) => (.error .timeoutError, s)) 3 2 ()).calls = 3 ∧
    (retry_request (fun _ (s : Unit) => (.error .timeoutError, s)) 3 2 ()).sleeps = [2, 4] ∧
    (retry_request (fun _ (s : Unit) => (.error .timeoutError, s)) 3 2 ()).outcome
      = .ok (some (false, none)) :=
  c5_retry_backoff_schedule (fun _ (s : Unit) => (.error .timeoutError, s)) ()
    (fun _ s => ⟨.timeoutError, s, rfl, rfl⟩)

/-- C2 counterexample: with the validation service raising a connection error
on every call, the assembled retry-wrapped validator performs exactly one
attempt with no back-off sleep — `validate_phone` catches
`aiohttp.ClientError` internally and returns (False, None), so the retry
wrapper never observes a connection error and never re-attempts. This refutes
the claim that every transient transport failure (including connection
errors) is retried up to the configured attempt count. -/
theorem c2_counterexample :
    (runTask 100 3 2 "5551234" (fun _ => TransportOutcome.clientError) []).calls = 1 ∧
    (runTask 100 3 2 "5551234" (fun _ => TransportOutcome.clientError) []).sleeps = [] ∧
    (runTask 100 3 2 "5551234" (fun _ => TransportOutcome.clientError) []).outcome
      = .ok (some (false, none)) ∧
    (runTask 100 3 2 "5551234" (fun _ => TransportOutcome.clientError) []).calls ≠ 3 := by
  decide

/-- C2 (amended): in the assembled pipeline only timeouts are retryable: an
identifier whose calls all time out is re-attempted exactly RETRY_COUNT = 3
times with back-off sleeps 2 then 4 before the final outcome becomes the
negative result (False, None); a connection error is caught inside the
validator and yields the negative result after a single attempt with no
retry. In both cases the batch is not aborted (the wrapper returns rather
than raises) and the cache is left unchanged. -/
theorem c2_amended_only_timeouts_retried (maxsize : Nat) (K : String)
    (c : CacheState) (hmiss : dictGet c K = none) :
    (runTask maxsize 3 2 K (fun _ => .timeout) c).calls = 3 ∧
    (runTask maxsize 3 2 K (fun _ => .timeout) c).sleeps = [2, 4] ∧
    (runTask maxsize 3 2 K (fun _ => .timeout) c).outcome = .ok (some (false, none)) ∧
    (runTask maxsize 3 2 K (fun _ => .timeout) c).state.1 = c ∧
    (runTask maxsize 3 2 K (fun _ => .clientError) c).calls = 1 ∧
    (runTask maxsize 3 2 K (fun _ => .clientError) c).sleeps = [] ∧
    (runTask maxsize 3 2 K (fun _ => .clientError) c).outcome = .ok (some (false, none)) ∧
    (runTask maxsize 3 2 K (fun _ => .clientError) c).state.1 = c := by
  have hv : validate_phone maxsize K .timeout c = ⟨.error .timeoutError, c, 1⟩ := by
    simp [validate_phone, hmiss]
  have hv2 : validate_phone maxsize K .clientError c = ⟨.ok (false, none), c, 1⟩ := by
    simp [validate_phone, hmiss]
  simp [runTask, retry_request, retry_go, validateOp, hv, hv2, isRetryable]

/-- C2 amended witness: concrete identifier and empty starting cache. -/
theorem c2_amended_only_timeouts_retried_witness :
    (runTask 100 3 2 "5551234" (fun _ => .timeout) []).calls = 3 ∧
    (runTask 100 3 2 "5551234" (fun _ => .timeout) []).sleeps = [2, 4] ∧
    (runTask 100 3 2 "5551234" (fun _ => .timeout) []).outcome = .ok (some (false, none)) ∧
    (runTask 100 3 2 "5551234" (fun _ => .timeout) []).state.1 = [] ∧
    (runTask 100 3 2 "5551234" (fun _ => .clientError) []).calls = 1 ∧
    (runTask 100 3 2 "5551234" (fun _ => .clientError) []).sleeps = [] ∧
    (runTask 100 3 2 "5551234" (fun _ => .clientError) []).outcome = .ok (some (false, none)) ∧
    (runTask 100 3 2 "5551234" (fun _ => .clientError) []).state.1 = [] :=
  c2_amended_only_timeouts_retried 100 "5551234" [] (by rfl)

/-- C6 counterexample: a timed-out call does NOT make `validate_phone` return
(False, None): `asyncio.TimeoutError` is not an `aiohttp.ClientError`, so it
propagates out of the function as a raised exception (the cache is still left
unchanged). This refutes the claim that every failure mode, timeouts
included, returns (False, None) from the validator itself. -/
theorem c6_counterexample :
    (validate_phone 100 "5551234" .timeout []).outcome = .error .timeoutError ∧
    (validate_phone 100 "5551234" .timeout []).outcome ≠ .ok (false, none) ∧
    (validate_phone 100 "5551234" .timeout []).cache = [] := by
  decide

/-- C6 (amended): when `validate_phone(identifier, transport)` fails, the
cache is left unchanged for that identifier (failures are never cached) and a
subsequent call issues the network call again; a malformed response, a
non-success status and a connection error return (False, None), while a
timed-out call raises `asyncio.TimeoutError` instead of returning (its
conversion to the negative result happens in the retry wrapper). -/
theorem c6_amended_failures_never_cached (maxsize : Nat) (K : String)
    (c : CacheState) (hmiss : dictGet c K = none) :
    (validate_phone maxsize K .clientError c = ⟨.ok (false, none), c, 1⟩) ∧
    (validate_phone maxsize K .timeout c = ⟨.error .timeoutError, c, 1⟩) ∧
    (∀ status data, status ≠ 200 →
      validate_phone maxsize K (.response status data) c
        = ⟨.ok (false, none), c, 1⟩) ∧
    (∀ status data, data.valid = none ∨ data.location = none →
      validate_phone maxsize K (.response status data) c
        = ⟨.ok (false, none), c, 1⟩) ∧
    (∀ t2, (validate_phone maxsize K t2 c).networkCalls = 1) := by
  refine ⟨?_, ?_, ?_, ?_, ?_⟩
  · simp [validate_phone, hmiss]
  · simp [validate_phone, hmiss]
  · intro status data hs
    simp [validate_phone, hmiss, hs]
  · intro status data hd
    obtain ⟨dv, dl⟩ := data
    by_cases hs : status = 200
    · rcases hd with hd | hd
      · simp only [ApiResponse.valid] at hd
        subst hd
        cases dl
        all_goals simp [validate_phone, hmiss, hs]
      · simp only [ApiResponse.location] at hd
        subst hd
        cases dv
        all_goals simp [validate_phone, hmiss, hs]
    · simp [validate_phone, hmiss, hs]
  · intro t2
    cases t2 with
    | clientError => simp [validate_phone, hmiss]
    | timeout => simp [validate_phone, hmiss]
    | response status data =>
        obtain ⟨dv, dl⟩ := data
        by_cases hs : status = 200
        · cases dv with
          | none => simp [validate_phone, hmiss, hs]
          | some b =>
              cases dl with
              | none => simp [validate_phone, hmiss, hs]
              | some loc =>
                  cases hset : AsyncCache.set maxsize K (b, loc) c
                  all_goals simp [validate_phone, hmiss, hs, hset]
        · simp [validate_phone, hmiss, hs]

/-- C6 amended witness: concrete failure modes with an empty cache. -/
theorem c6_amended_failures_never_cached_witness :
    (validate_phone 100 "5551234" .clientError [] = ⟨.ok (false, none), [], 1⟩) ∧
    (validate_phone 100 "5551234" (.response 503 ⟨some true, some (some "US")⟩) []
      = ⟨.ok (false, none), [], 1⟩) ∧
    (validate_phone 100 "5551234" (.response 200 ⟨none, none⟩) []
      = ⟨.ok (false, none), [], 1⟩) ∧
    (validate_phone 100 "5551234" .timeout []).networkCalls = 1 := by
  have h := c6_amended_failures_never_cached 100 "5551234" [] (by rfl)
  exact ⟨h.1, h.2.2.1 503 ⟨some true, some (some "US")⟩ (by omega),
    h.2.2.2.1 200 ⟨none, none⟩ (Or.inl rfl), h.2.2.2.2 .timeout⟩

/-- C8: once `validate_phone(K)` has received a well-formed 200 response and
stored its result in the cache, a second call for K returns the identical
result, issues zero network calls, and leaves the cache unchanged, whatever
the transport would have done on that second call. -/
theorem c8_cache_hit_bypass (maxsize : Nat) (K : String) (b : Bool)
    (loc : Option String) (c : CacheState) (t2 : TransportOutcome)
    (hms : 1 ≤ maxsize) (hmiss : dictGet c K = none) :
    (validate_phone maxsize K (.response 200 ⟨some b, some loc⟩) c).outcome
      = .ok (b, loc) ∧
    (validate_phone maxsize K (.response 200 ⟨some b, some loc⟩) c).networkCalls = 1 ∧
    validate_phone maxsize K t2
        ((validate_phone maxsize K (.response 200 ⟨some b, some loc⟩) c).cache)
      = ⟨.ok (b, loc),
         (validate_phone maxsize K (.response 200 ⟨some b, some loc⟩) c).cache, 0⟩ := by
  obtain ⟨c2, hset, hget⟩ := cacheSet_of_pos maxsize K (b, loc) c hms
  have h1 : validate_phone maxsize K (.response 200 ⟨some b, some loc⟩) c
      = ⟨.ok (b, loc), c2, 1⟩ := by
    simp [validate_phone, hmiss, hset]
  rw [h1]
  refine ⟨rfl, rfl, ?_⟩
  simp [validate_phone, hget]

/-- C8 witness: the end-to-end identifier from the spec scenario; the second
call is run against a transport that would fail, and still returns the cached
result with zero network calls. -/
theorem c8_cache_hit_bypass_witness :
    (validate_phone 100 "1234567890" (.response 200 ⟨some true, some (some "US")⟩) []).outcome
      = .ok (true, some "US") ∧
    (validate_phone 100 "1234567890" (.response 200 ⟨some true, some (some "US")⟩) []).networkCalls = 1 ∧
    validate_phone 100 "1234567890" .clientError
        ((validate_phone 100 "1234567890" (.response 200 ⟨some true, some (some "US")⟩) []).cache)
      = ⟨.ok (true, some "US"),
         (validate_phone 100 "1234567890" (.response 200 ⟨some true, some (some "US")⟩) []).cache, 0⟩ :=
  c8_cache_hit_bypass 100 "1234567890" true (some "US") [] .clientError
    (by omega) (by rfl)

/-- C1 (code bug): `batch_validate_phones` collects results in COMPLETION
order (`asyncio.as_completed`) but then zips the input-order phone list with
that completion-order result list. With batch [A, B], where the task for A
produces (True, (quoted) LA) and the task for B fails with a connection error,
and B completes first, the line written for A carries the result produced for
B, and the returned sequence is not positionally aligned with the input. -/
theorem c1_mispairing_on_out_of_order_completion :
    (batch_validate_phones 100 3 2 ["A", "B"]
      (fun i _ => if i = 0 then .response 200 ⟨some true, some (some "LA")⟩
        else .clientError) [1, 0] []).lines
      = ["Phone: A, Result: (False, None)\n",
         "Phone: B, Result: (True, " ++ squote ++ "LA" ++ squote ++ ")\n"] ∧
    (runTask 100 3 2 "A"
      (fun _ => .response 200 ⟨some true, some (some "LA")⟩) []).outcome
      = .ok (some (true, some "LA")) ∧
    (batch_validate_phones 100 3 2 ["A", "B"]
      (fun i _ => if i = 0 then .response 200 ⟨some true, some (some "LA")⟩
        else .clientError) [1, 0] []).results
      = [some (false, none), some (true, some "LA")] ∧
    (batch_validate_phones 100 3 2 ["A", "B"]
      (fun i _ => if i = 0 then .response 200 ⟨some true, some (some "LA")⟩
        else .clientError) [1, 0] []).results
      ≠ [some (true, some "LA"), some (false, none)] := by
  decide

/-- C3 counterexample: for input [1234567890] with a well-formed first
response of valid true and location US, the written line is NOT
`Phone: 1234567890, Result: (True, US)`: the f-string interpolates the Python
tuple, whose `repr` quotes the location string. -/
theorem c3_counterexample :
    (batch_validate_phones 100 3 2 ["1234567890"]
      (fun _ _ => .response 200 ⟨some true, some (some "US")⟩) [0] []).lines
      ≠ ["Phone: 1234567890, Result: (True, US)\n"] ∧
    (batch_validate_phones 100 3 2 ["1234567890"]
      (fun _ _ => .response 200 ⟨some true, some (some "US")⟩) [0] []).lines
      = ["Phone: 1234567890, Result: (True, " ++ squote ++ "US" ++ squote ++ ")\n"] := by
  decide

/-- C3 (amended): for the input batch [1234567890] with the service answering
the first call with valid true and location US, the single line written to
the output sink is `Phone: 1234567890, Result: (True, ` + a single-quoted
`US` + `)`, i.e. the location appears in Python string-repr quotes, and the
returned result list holds the (True, US) pair. -/
theorem c3_amended_end_to_end_line :
    (batch_validate_phones 100 3 2 ["1234567890"]
      (fun _ _ => .response 200 ⟨some true, some (some "US")⟩) [0] []).lines
      = ["Phone: 1234567890, Result: (True, " ++ squote ++ "US" ++ squote ++ ")\n"] ∧
    (batch_validate_phones 100 3 2 ["1234567890"]
      (fun _ _ => .response 200 ⟨some true, some (some "US")⟩) [0] []).results
      = [some (true, some "US")] := by
  decide

/-- C7: when every task completes, the orchestrator collects exactly one
entry per input identifier; at its collection boundary any exception raised
by an awaited task is converted to (False, None) (so an individual failure
never raises out of the orchestrator); and each collected entry is exactly
the collected outcome of its own task, run against the cache state current at
that point, so one identifier's failure never changes a sibling's entry. -/
theorem c7_partial_failure_isolation (phones : List String)
    (transports : Nat → Nat → TransportOutcome) (order : List Nat)
    (c0 : CacheState) (h : order.length = phones.length) :
    (batch_validate_phones 100 3 2 phones transports order c0).results.length
      = phones.length ∧
    (∀ e : PyErr, collectValue (.error e) = some (false, none)) ∧
    (∀ j, j < order.length → ∃ cj,
      (batch_validate_phones 100 3 2 phones transports order c0).results[j]?
        = some (collectValue (runTask 100 3 2 (phones.getD (order.getD j 0) "")
            (transports (order.getD j 0)) cj).outcome)) := by
  refine ⟨?_, fun e => rfl, ?_⟩
  · simp only [batch_validate_phones]
    rw [runBatchAux_length]
    exact h
  · intro j hj
    obtain ⟨cj, hcj⟩ := runBatchAux_get 100 3 2 phones transports order c0 j hj
    refine ⟨cj, ?_⟩
    simp only [batch_validate_phones]
    exact hcj

/-- C7 witness: a batch of two identifiers whose transport always raises a
connection error, with out-of-order completion. -/
theorem c7_partial_failure_isolation_witness :
    (batch_validate_phones 100 3 2 ["A", "B"]
      (fun _ _ => TransportOutcome.clientError) [1, 0] []).results.length = 2 ∧
    collectValue (.error .otherError) = some (false, none) ∧
    (batch_validate_phones 100 3 2 ["A", "B"]
      (fun _ _ => TransportOutcome.clientError) [1, 0] []).results[0]?
      = some (some (false, none)) := by
  have h := c7_partial_failure_isolation ["A", "B"]
    (fun _ _ => TransportOutcome.clientError) [1, 0] [] rfl
  exact ⟨h.1, h.2.1 .otherError, by decide⟩
